import Mathlib

/-!
Verification of the small-size-league-mcp document pipeline.

This file shallowly embeds the parts of the repository that the claims
concern:

* the chunk-id assignment of `split_documents` (src/modules/text_handler.py),
  including a byte-accurate model of `hashlib.md5` over UTF-8 bytes;
* `VectorStoreManager.remove_invalid_documents`, `deduplicate_documents`,
  `get_ids` and the batching loop of `add_or_update_documents`
  (src/modules/db_management.py), with the vector store's `add_documents`
  modelled as recording each call;
* the relevance-threshold filter of `ssl_search_tool` and the
  `SSLDocumentSource` filter values (src/tools/ssl_search.py), together with
  the document-type metadata tags set by `run_all_commands` (src/main.py).
-/

set_option maxRecDepth 8000
set_option linter.unusedVariables false

namespace SSLMCP

/-! ### UTF-8 bytes of a string (Python `str.encode()`) -/

/-- UTF-8 encoding of a single code point, as a list of byte values. -/
def utf8EncodeCharNat (n : Nat) : List Nat :=
  if n < 128 then [n]
  else if n < 2048 then [192 + n / 64, 128 + n % 64]
  else if n < 65536 then [224 + n / 4096, 128 + (n / 64) % 64, 128 + n % 64]
  else [240 + n / 262144, 128 + (n / 4096) % 64, 128 + (n / 64) % 64, 128 + n % 64]

/-- The UTF-8 bytes of a string, the value of Python `s.encode()`. -/
def strBytes (s : String) : List Nat :=
  (s.data.map (fun c => utf8EncodeCharNat c.toNat)).flatten

/-! ### MD5 (the `hashlib.md5(...).hexdigest()` used by `split_documents`) -/

def w32 : Nat := 4294967296

/-- Addition modulo 2^32. -/
def add32 (a b : Nat) : Nat := (a + b) % w32

/-- Bitwise complement on 32 bits. -/
def not32 (a : Nat) : Nat := Nat.xor (a % w32) 4294967295

/-- Rotate a 32-bit value left by `s` bits. -/
def rotl32 (x s : Nat) : Nat :=
  ((x % w32) % 2 ^ (32 - s)) * 2 ^ s + (x % w32) / 2 ^ (32 - s)

/-- The MD5 sine-derived round constants `K[0..63]`. -/
def mdK : List Nat :=
  [3614090360, 3905402710, 606105819, 3250441966, 4118548399, 1200080426,
   2821735955, 4249261313, 1770035416, 2336552879, 4294925233, 2304563134,
   1804603682, 4254626195, 2792965006, 1236535329, 4129170786, 3225465664,
   643717713, 3921069994, 3593408605, 38016083, 3634488961, 3889429448,
   568446438, 3275163606, 4107603335, 1163531501, 2850285829, 4243563512,
   1735328473, 2368359562, 4294588738, 2272392833, 1839030562, 4259657740,
   2763975236, 1272893353, 4139469664, 3200236656, 681279174, 3936430074,
   3572445317, 76029189, 3654602809, 3873151461, 530742520, 3299628645,
   4096336452, 1126891415, 2878612391, 4237533241, 1700485571, 2399980690,
   4293915773, 2240044497, 1873313359, 4264355552, 2734768916, 1309151649,
   4149444226, 3174756917, 718787259, 3951481745]

/-- The MD5 per-round left-rotation amounts `s[0..63]`. -/
def mdS : List Nat :=
  [7, 12, 17, 22, 7, 12, 17, 22, 7, 12, 17, 22, 7, 12, 17, 22,
   5, 9, 14, 20, 5, 9, 14, 20, 5, 9, 14, 20, 5, 9, 14, 20,
   4, 11, 16, 23, 4, 11, 16, 23, 4, 11, 16, 23, 4, 11, 16, 23,
   6, 10, 15, 21, 6, 10, 15, 21, 6, 10, 15, 21, 6, 10, 15, 21]

/-- The 64-bit message length in bits, little-endian, as 8 bytes. -/
def lenBytesLE (ml : Nat) : List Nat :=
  [ml % 256, ml / 256 % 256, ml / 65536 % 256, ml / 16777216 % 256,
   ml / 4294967296 % 256, ml / 1099511627776 % 256,
   ml / 281474976710656 % 256, ml / 72057594037927936 % 256]

/-- MD5 padding: append `0x80`, zero-fill to 56 mod 64, append the bit
length little-endian. -/
def padMessage (msg : List Nat) : List Nat :=
  msg ++ 128 :: List.replicate ((56 + 64 - (msg.length + 1) % 64) % 64) 0
      ++ lenBytesLE ((8 * msg.length) % 18446744073709551616)

/-- Split a byte list into its 64-byte blocks (structural recursion on a
fuel bound, so that the definition reduces in the kernel; the fuel
`l.length` always suffices since each step consumes 64 bytes). -/
def chunks64Fuel : Nat → List Nat → List (List Nat)
  | _, [] => []
  | 0, _ => []
  | Nat.succ fuel, l => l.take 64 :: chunks64Fuel fuel (l.drop 64)

/-- Split a byte list into its 64-byte blocks. -/
def chunks64 (l : List Nat) : List (List Nat) := chunks64Fuel l.length l

/-- The little-endian 32-bit word at index `g` of a 64-byte block. -/
def wordAt (block : List Nat) (g : Nat) : Nat :=
  block.getD (4 * g) 0 + 256 * block.getD (4 * g + 1) 0
    + 65536 * block.getD (4 * g + 2) 0 + 16777216 * block.getD (4 * g + 3) 0

structure MDState where
  a : Nat
  b : Nat
  c : Nat
  d : Nat
deriving DecidableEq

/-- One of the 64 MD5 rounds. -/
def mdRound (block : List Nat) (st : MDState) (i : Nat) : MDState :=
  let f :=
    if i < 16 then Nat.lor (Nat.land st.b st.c) (Nat.land (not32 st.b) st.d)
    else if i < 32 then Nat.lor (Nat.land st.b st.d) (Nat.land st.c (not32 st.d))
    else if i < 48 then Nat.xor (Nat.xor st.b st.c) st.d
    else Nat.xor st.c (Nat.lor st.b (not32 st.d))
  let g :=
    if i < 16 then i
    else if i < 32 then (5 * i + 1) % 16
    else if i < 48 then (3 * i + 5) % 16
    else (7 * i) % 16
  let tmp := add32 (add32 (add32 f st.a) (mdK.getD i 0)) (wordAt block g)
  { a := st.d, b := add32 st.b (rotl32 tmp (mdS.getD i 0)), c := st.b, d := st.c }

/-- Process one 64-byte block, updating the running MD5 state. -/
def processBlock (st : MDState) (block : List Nat) : MDState :=
  let r := (List.range 64).foldl (mdRound block) st
  { a := add32 st.a r.a, b := add32 st.b r.b, c := add32 st.c r.c,
    d := add32 st.d r.d }

def md5Init : MDState :=
  { a := 1732584193, b := 4023233417, c := 2562383102, d := 271733878 }

/-- A 32-bit word as 4 little-endian bytes. -/
def wordLE (w : Nat) : List Nat :=
  [w % 256, w / 256 % 256, w / 65536 % 256, w / 16777216 % 256]

/-- The 16-byte MD5 digest of a byte list. -/
def md5Bytes (msg : List Nat) : List Nat :=
  let st := (chunks64 (padMessage msg)).foldl processBlock md5Init
  wordLE st.a ++ wordLE st.b ++ wordLE st.c ++ wordLE st.d

/-- The sixteen lowercase hexadecimal characters, `0`–`9` then `a`–`f`. -/
def hexChars : List Char :=
  (List.range 16).map (fun n => if n < 10 then Char.ofNat (48 + n) else Char.ofNat (87 + n))

def hexDigit (n : Nat) : Char := hexChars.getD n '0'

/-- The two lowercase hex characters of one byte. -/
def byteHex (b : Nat) : List Char := [hexDigit (b / 16), hexDigit (b % 16)]

/-- Python `hashlib.md5(s.encode()).hexdigest()`. -/
def md5_hexdigest (s : String) : String :=
  String.mk ((md5Bytes (strBytes s)).map byteHex).flatten

/-! ### Chunk-id assignment of `split_documents` (src/modules/text_handler.py)

For each surviving chunk the source computes
`content = doc.page_content.strip()`,
`hash_string = f"{type}-{source}-{content}"`,
`url_hash = hashlib.md5(hash_string.encode()).hexdigest()` and
`doc.metadata["id"] = f"doc_{url_hash}"`. -/

/-- Python `str.strip()` on a character list. -/
def stripChars (l : List Char) : List Char :=
  ((l.dropWhile Char.isWhitespace).reverse.dropWhile Char.isWhitespace).reverse

/-- Python `str.strip()`. -/
def strip (s : String) : String := String.mk (stripChars s.data)

/-- The pre-hash identity string `f"{type}-{source}-{content}"`. -/
def hash_string (ty source content : String) : String :=
  ty ++ "-" ++ source ++ "-" ++ content

/-- The id `split_documents` assigns to a chunk with metadata type `ty`,
metadata source `source` and page content `page_content`. -/
def assign_id (ty source page_content : String) : String :=
  "doc_" ++ md5_hexdigest (hash_string ty source (strip page_content))

/-! ### Document model for `VectorStoreManager` (src/modules/db_management.py)

A document is its `page_content`, the `id` entry of its metadata (absent
when the metadata is `None` or has no `"id"` key) and the `tokens` entry of
its metadata. -/

structure Document where
  page_content : String
  meta_id : Option String
  meta_tokens : Nat
deriving DecidableEq

/-- The metadata id `doc.metadata["id"]` of a document that has one. -/
def metaId (d : Document) : String := d.meta_id.getD ""

/-- `VectorStoreManager.remove_invalid_documents`: drop documents with no
metadata id and documents with empty page content. -/
def remove_invalid_documents (documents : List Document) : List Document :=
  documents.filter (fun d => d.meta_id.isSome && !(d.page_content == ""))

/-- The loop body of `VectorStoreManager.deduplicate_documents`, with the
`seen` set of ids carried as a list. -/
def dedupAux (seen : List String) : List Document → List Document
  | [] => []
  | d :: rest =>
    if metaId d ∈ seen then dedupAux seen rest
    else d :: dedupAux (metaId d :: seen) rest

/-- `VectorStoreManager.deduplicate_documents`: keep the first document seen
for each distinct metadata id. -/
def deduplicate_documents (documents : List Document) : List Document :=
  dedupAux [] documents

/-- `VectorStoreManager.get_ids`. -/
def get_ids (documents : List Document) : List String :=
  documents.map metaId

/-! ### The batching loop of `add_or_update_documents`

The vector store's `add_documents(documents=..., ids=...)` is modelled by
recording the pair of arguments of each call, in order, in `calls`. -/

structure BatchState where
  calls : List (List Document × List String)
  total_tokens : Nat
  limit_index : Nat
  last_added_index : Nat
deriving DecidableEq

def initialBatchState : BatchState :=
  { calls := [], total_tokens := 0, limit_index := 0, last_added_index := 0 }

/-- Python list slice `l[i:j]` (for `i ≤ j`, the case reached in the loop). -/
def pySlice {α : Type} (l : List α) (i j : Nat) : List α :=
  (l.drop i).take (j - i)

/-- One iteration of the `for idx, doc in enumerate(valid_documents)` loop of
`add_or_update_documents`. -/
def batchStep (valid : List Document) (ids : List String) (B : Nat)
    (st : BatchState) (p : Nat × Document) : BatchState :=
  let idx := p.1
  let doc := p.2
  let li :=
    if st.total_tokens + doc.meta_tokens > B then idx
    else if idx = valid.length - 1 then idx
    else st.limit_index
  if li > 0 then
    { calls := st.calls ++ [(pySlice valid st.last_added_index idx,
                             pySlice ids st.last_added_index idx)],
      total_tokens := 0, limit_index := li, last_added_index := idx }
  else
    { calls := st.calls, total_tokens := st.total_tokens + doc.meta_tokens,
      limit_index := li, last_added_index := st.last_added_index }

def runBatchLoop (valid : List Document) (ids : List String) (B : Nat) :
    BatchState :=
  valid.enum.foldl (batchStep valid ids B) initialBatchState

/-- The observable outcome of `add_or_update_documents`: the early `return`
on an empty argument, a normal return of `added_ids`, or the
`ZeroDivisionError` raised by the final log line
`len(added_ids) / len(valid_documents)` when the valid list is empty. Each
outcome also carries the `add_documents` calls issued before it. -/
inductive UpsertOutcome where
  | noop : UpsertOutcome
  | ok : List String → List (List Document × List String) → UpsertOutcome
  | zeroDivisionError : List (List Document × List String) → UpsertOutcome
deriving DecidableEq

/-- `VectorStoreManager.add_or_update_documents` with token budget `B`
(`max_tokens_per_request`, default 300000). -/
def add_or_update_documents (B : Nat) (documents : List Document) :
    UpsertOutcome :=
  if documents.length = 0 then UpsertOutcome.noop
  else
    let valid := deduplicate_documents (remove_invalid_documents documents)
    let ids := get_ids valid
    let st := runBatchLoop valid ids B
    let added_ids := (st.calls.map Prod.snd).flatten
    if valid.length = 0 then UpsertOutcome.zeroDivisionError st.calls
    else UpsertOutcome.ok added_ids st.calls

/-- The `add_documents` calls an outcome records. -/
def callsOf : UpsertOutcome → List (List Document × List String)
  | UpsertOutcome.noop => []
  | UpsertOutcome.ok _ calls => calls
  | UpsertOutcome.zeroDivisionError calls => calls

/-! ### Retrieval facade (src/tools/ssl_search.py) and type tags
(src/main.py) -/

structure SDoc where
  dtype : String
  content : String
deriving DecidableEq

/-- The list comprehension
`[doc for doc, score in result if score >= input_data.threshold]` of
`ssl_search_tool`, applied to the scored candidates the index returned. -/
def ssl_search_tool (threshold : ℚ) : List (SDoc × ℚ) → List SDoc
  | [] => []
  | (doc, score) :: rest =>
    if threshold ≤ score then doc :: ssl_search_tool threshold rest
    else ssl_search_tool threshold rest

/-- `SSLDocumentSource.WEBSITE.value`. -/
def websiteFilterValue : String := "website_pages"

/-- The `"type"` metadata tag `run_all_commands` puts on website documents. -/
def websitePageTag : String := "website_page"

/-- The three `"type"` metadata tags `run_all_commands` puts on ingested
documents (website, rules, repository). -/
def pipelineTypeTags : List String :=
  [websitePageTag, "rules", "repository"]

/-- The index's metadata filter `{"type": t}`: an equality match on the
stored `"type"` metadata. -/
def chromaTypeFilter (t : String) (entries : List SDoc) : List SDoc :=
  entries.filter (fun e => e.dtype == t)

/-! ### Sanity checks of the hash model -/

/-- Sanity: the model reproduces the reference digest of `"abc"`. -/
theorem md5_abc : md5_hexdigest ("abc") = "900150983cd24fb0d6963f7d28e17f72" := by
  decide

/-- Sanity: the model reproduces the reference digest of the empty string. -/
theorem md5_empty : md5_hexdigest ("") = "d41d8cd98f00b204e9800998ecf8427e" := by
  decide

/-! ### Concrete inputs for the batching claims -/

/-- A valid chunk with the given metadata id, page content and token count. -/
def mkChunk (cid content : String) (tokens : Nat) : Document :=
  { page_content := content, meta_id := some cid, meta_tokens := tokens }

/-- Ten valid, deduplicated chunks of 100000 tokens each (the spec's
batching scenario). -/
def tenChunks : List Document :=
  [mkChunk ("id0") ("c0") 100000, mkChunk ("id1") ("c1") 100000,
   mkChunk ("id2") ("c2") 100000, mkChunk ("id3") ("c3") 100000,
   mkChunk ("id4") ("c4") 100000, mkChunk ("id5") ("c5") 100000,
   mkChunk ("id6") ("c6") 100000, mkChunk ("id7") ("c7") 100000,
   mkChunk ("id8") ("c8") 100000, mkChunk ("id9") ("c9") 100000]

/-- C1: the claimed batch-partition property fails on the code. A single
valid 100-token chunk under budget 300000 is committed in no batch at all
(the loop's commit slice `valid_documents[last_added_index:idx]` never
reaches the final index), and for two small chunks only the first is
committed, so the concatenation of the committed batches does not
reconstruct the input sequence. -/
theorem batch_partition_loses_chunks :
    add_or_update_documents 300000 [mkChunk ("id0") ("c0") 100] =
        UpsertOutcome.ok [] []
      ∧ ((callsOf (add_or_update_documents 300000
            [mkChunk ("id0") ("c0") 100, mkChunk ("id1") ("c1") 100])).map
          Prod.fst).flatten = [mkChunk ("id0") ("c0") 100] := by
  decide

/-- C2: on ten 100000-token chunks with budget 300000 the code commits
batches of sizes `[3, 1, 1, 1, 1, 1, 1]` — nine chunks in total, the tenth
chunk is never committed — not the claimed `[3, 3, 3, 1]` covering all ten
(`limit_index` is never reset, so after the first overflow every iteration
commits, and the final index is never included in a slice). -/
theorem ten_chunk_scenario_batches :
    (callsOf (add_or_update_documents 300000 tenChunks)).map
        (fun c => c.1.length) = [3, 1, 1, 1, 1, 1, 1]
      ∧ (((callsOf (add_or_update_documents 300000 tenChunks)).map
          Prod.fst).flatten).length = 9
      ∧ tenChunks.length = 10 := by
  decide

/-- C3: a single valid chunk of 400000 tokens with budget 300000 is
committed in no batch: the code silently drops the oversized chunk instead
of committing it as a singleton batch (`limit_index` is set to `idx = 0`,
which fails the `limit_index > 0` test). -/
theorem oversized_chunk_dropped :
    add_or_update_documents 300000 [mkChunk ("big") ("b") 400000] =
      UpsertOutcome.ok [] [] := by
  decide

/-- C4: the empty input list is a no-op as claimed, but a non-empty input
whose documents are all invalid (here: one document with no metadata id)
reaches the final log line `len(added_ids) / len(valid_documents) * 100`
with `len(valid_documents) = 0` and raises `ZeroDivisionError`, contrary to
the claim that no exception is ever raised. -/
theorem degenerate_input_crashes :
    add_or_update_documents 300000 [] = UpsertOutcome.noop
      ∧ add_or_update_documents 300000
          [{ page_content := "content", meta_id := none, meta_tokens := 5 }] =
        UpsertOutcome.zeroDivisionError [] := by
  decide

/-! ### Deduplication: first occurrence per id, in first-seen order -/

theorem dedupAux_sublist (seen : List String) (docs : List Document) :
    (dedupAux seen docs).Sublist docs := by
  induction docs generalizing seen with
  | nil => simp [dedupAux]
  | cons d rest ih =>
    simp only [dedupAux]
    by_cases h : metaId d ∈ seen
    · rw [if_pos h]
      exact (ih seen).cons d
    · rw [if_neg h]
      exact (ih (metaId d :: seen)).cons₂ d

theorem dedupAux_not_seen (seen : List String) (docs : List Document) :
    ∀ y ∈ dedupAux seen docs, metaId y ∉ seen := by
  induction docs generalizing seen with
  | nil => simp [dedupAux]
  | cons d rest ih =>
    simp only [dedupAux]
    by_cases h : metaId d ∈ seen
    · rw [if_pos h]
      exact ih seen
    · rw [if_neg h]
      intro y hy
      rw [List.mem_cons] at hy
      rcases hy with rfl | hy
      · exact h
      · intro hmem
        exact ih (metaId d :: seen) y hy (List.mem_cons_of_mem _ hmem)

theorem dedupAux_ids_nodup (seen : List String) (docs : List Document) :
    ((dedupAux seen docs).map metaId).Nodup := by
  induction docs generalizing seen with
  | nil => simp [dedupAux]
  | cons d rest ih =>
    simp only [dedupAux]
    by_cases h : metaId d ∈ seen
    · rw [if_pos h]
      exact ih seen
    · rw [if_neg h]
      rw [List.map_cons, List.nodup_cons]
      constructor
      · intro hmem
        rcases List.mem_map.mp hmem with ⟨y, hy, hEq⟩
        apply dedupAux_not_seen (metaId d :: seen) rest y hy
        rw [hEq]
        exact List.mem_cons_self _ _
      · exact ih (metaId d :: seen)

theorem dedupAux_complete (seen : List String) (docs : List Document) :
    ∀ d ∈ docs,
      metaId d ∈ seen ∨ metaId d ∈ (dedupAux seen docs).map metaId := by
  induction docs generalizing seen with
  | nil => simp
  | cons x rest ih =>
    intro d hd
    rw [List.mem_cons] at hd
    simp only [dedupAux]
    by_cases h : metaId x ∈ seen
    · rw [if_pos h]
      rcases hd with rfl | hd
      · exact Or.inl h
      · exact ih seen d hd
    · rw [if_neg h]
      rcases hd with rfl | hd
      · right
        rw [List.map_cons]
        exact List.mem_cons_self _ _
      · rcases ih (metaId x :: seen) d hd with hmem | hmem
        · rw [List.mem_cons] at hmem
          rcases hmem with hEq | hmem
          · right
            rw [List.map_cons, hEq]
            exact List.mem_cons_self _ _
          · exact Or.inl hmem
        · right
          rw [List.map_cons]
          exact List.mem_cons_of_mem _ hmem

theorem dedupAux_first_occ (seen : List String) (docs : List Document) :
    ∀ y ∈ dedupAux seen docs,
      docs.find? (fun z => metaId z == metaId y) = some y := by
  induction docs generalizing seen with
  | nil => simp [dedupAux]
  | cons d rest ih =>
    intro y hy
    simp only [dedupAux] at hy
    by_cases h : metaId d ∈ seen
    · rw [if_pos h] at hy
      have hne : metaId y ≠ metaId d := by
        intro hEq
        apply dedupAux_not_seen seen rest y hy
        rw [hEq]
        exact h
      rw [List.find?_cons_of_neg _ (by simp [hne.symm]), ih seen y hy]
    · rw [if_neg h] at hy
      rw [List.mem_cons] at hy
      rcases hy with rfl | hy
      · rw [List.find?_cons_of_pos _ (by simp)]
      · have hne : metaId y ≠ metaId d := by
          intro hEq
          apply dedupAux_not_seen (metaId d :: seen) rest y hy
          rw [hEq]
          exact List.mem_cons_self _ _
        rw [List.find?_cons_of_neg _ (by simp [hne.symm]),
          ih (metaId d :: seen) y hy]

/-- C5: `deduplicate_documents` keeps, for each distinct id, exactly the
first chunk in input order bearing that id: the output is an
order-preserving subsequence of the input, its ids are pairwise distinct,
every input id is represented, and every kept chunk is the first chunk in
the input with its id. -/
theorem dedup_first_seen (docs : List Document)
    (hids : ∀ d ∈ docs, d.meta_id.isSome) :
    (deduplicate_documents docs).Sublist docs
      ∧ ((deduplicate_documents docs).map metaId).Nodup
      ∧ (∀ d ∈ docs, metaId d ∈ (deduplicate_documents docs).map metaId)
      ∧ ∀ y ∈ deduplicate_documents docs,
          docs.find? (fun z => metaId z == metaId y) = some y := by
  refine ⟨dedupAux_sublist [] docs, dedupAux_ids_nodup [] docs, ?_,
    dedupAux_first_occ [] docs⟩
  intro d hd
  rcases dedupAux_complete [] docs d hd with hmem | hmem
  · exact absurd hmem (List.not_mem_nil _)
  · exact hmem

/-- Witness for C5 at a concrete duplicated input: the second chunk with id
`"a"` is dropped and the first is kept. -/
theorem dedup_first_seen_witness :
    (deduplicate_documents [mkChunk ("a") ("x") 1, mkChunk ("a") ("y") 2]).Sublist
        [mkChunk ("a") ("x") 1, mkChunk ("a") ("y") 2]
      ∧ ∀ y ∈ deduplicate_documents [mkChunk ("a") ("x") 1, mkChunk ("a") ("y") 2],
          [mkChunk ("a") ("x") 1, mkChunk ("a") ("y") 2].find?
            (fun z => metaId z == metaId y) = some y :=
  ⟨(dedup_first_seen [mkChunk ("a") ("x") 1, mkChunk ("a") ("y") 2]
      (by decide)).1,
   (dedup_first_seen [mkChunk ("a") ("x") 1, mkChunk ("a") ("y") 2]
      (by decide)).2.2.2⟩

/-! ### Key/content alignment of every `add_documents` call -/

theorem pySlice_map {α β : Type} (f : α → β) (l : List α) (i j : Nat) :
    pySlice (l.map f) i j = (pySlice l i j).map f := by
  simp [pySlice, List.map_take, List.map_drop]

/-- One loop iteration either issues no call or appends exactly one call,
whose arguments are matching slices of `valid` and `ids`. -/
theorem batchStep_calls (valid : List Document) (ids : List String) (B : Nat)
    (st : BatchState) (p : Nat × Document) :
    (batchStep valid ids B st p).calls = st.calls
      ∨ (batchStep valid ids B st p).calls =
          st.calls ++ [(pySlice valid st.last_added_index p.1,
                        pySlice ids st.last_added_index p.1)] := by
  simp only [batchStep]
  repeat' split
  all_goals first | exact Or.inl rfl | exact Or.inr rfl

theorem batchStep_calls_aligned (valid : List Document) (ids : List String)
    (B : Nat) (hids : ids = valid.map metaId) (st : BatchState)
    (p : Nat × Document)
    (hst : ∀ c ∈ st.calls, c.2 = c.1.map metaId) :
    ∀ c ∈ (batchStep valid ids B st p).calls, c.2 = c.1.map metaId := by
  intro c hc
  rcases batchStep_calls valid ids B st p with h | h
  · rw [h] at hc
    exact hst c hc
  · rw [h, List.mem_append] at hc
    rcases hc with hc | hc
    · exact hst c hc
    · rw [List.mem_singleton] at hc
      subst hc
      rw [hids]
      exact pySlice_map metaId valid _ _

theorem runBatchLoop_calls_aligned (valid : List Document) (B : Nat) :
    ∀ c ∈ (runBatchLoop valid (get_ids valid) B).calls,
      c.2 = c.1.map metaId := by
  have key : ∀ (l : List (Nat × Document)) (st : BatchState),
      (∀ c ∈ st.calls, c.2 = c.1.map metaId) →
      ∀ c ∈ (l.foldl (batchStep valid (get_ids valid) B) st).calls,
        c.2 = c.1.map metaId := by
    intro l
    induction l with
    | nil =>
      intro st hst
      simpa using hst
    | cons p l ih =>
      intro st hst
      rw [List.foldl_cons]
      exact ih _ (batchStep_calls_aligned valid (get_ids valid) B rfl st p hst)
  exact key valid.enum initialBatchState (by intro c hc; simp [initialBatchState] at hc)

/-- C10: in every `add_documents` call issued by `add_or_update_documents`,
the `ids` argument equals, element by element and in order, the metadata
ids of the `documents` argument of that same call, so no document is stored
under another document's key. -/
theorem upsert_ids_match_documents (B : Nat) (documents : List Document) :
    ∀ c ∈ callsOf (add_or_update_documents B documents),
      c.2 = c.1.map metaId := by
  intro c hc
  simp only [add_or_update_documents] at hc
  by_cases hlen : documents.length = 0
  · rw [if_pos hlen] at hc
    simp [callsOf] at hc
  · rw [if_neg hlen] at hc
    by_cases hv :
        (deduplicate_documents (remove_invalid_documents documents)).length = 0
    · rw [if_pos hv] at hc
      simp only [callsOf] at hc
      exact runBatchLoop_calls_aligned _ B c hc
    · rw [if_neg hv] at hc
      simp only [callsOf] at hc
      exact runBatchLoop_calls_aligned _ B c hc

/-- Witness for C10 at a concrete input that issues one `add_documents`
call: the ids passed with that call are the metadata ids of its documents. -/
theorem upsert_ids_match_documents_witness :
    (([mkChunk ("id0") ("c0") 100], ["id0"]) :
        List Document × List String).2 =
      ([mkChunk ("id0") ("c0") 100], ["id0"]).1.map metaId :=
  upsert_ids_match_documents 300000
    [mkChunk ("id0") ("c0") 100, mkChunk ("id1") ("c1") 100]
    ([mkChunk ("id0") ("c0") 100], ["id0"]) (by decide)

/-! ### Retrieval thresholding -/

theorem ssl_search_tool_eq_filter (th : ℚ) (result : List (SDoc × ℚ)) :
    ssl_search_tool th result
      = (result.filter (fun p => decide (th ≤ p.2))).map Prod.fst := by
  induction result with
  | nil => rfl
  | cons p rest ih =>
    obtain ⟨d, s⟩ := p
    simp only [ssl_search_tool]
    by_cases h : th ≤ s
    · rw [if_pos h, ih, List.filter_cons_of_pos (by simpa using h),
        List.map_cons]
    · rw [if_neg h, ih, List.filter_cons_of_neg (by simpa using h)]

/-- C8: the facade returns exactly the candidates of the index's ranked
list whose relevance score is at least the threshold, preserving the
index's order (so possibly fewer results than candidates, including zero),
and with threshold 0 every candidate with a nonnegative relevance score —
all of them, under the index contract that scores lie in `[0, 1]` — passes
unchanged. -/
theorem ssl_threshold_filter (th : ℚ) (result : List (SDoc × ℚ)) :
    ssl_search_tool th result
        = (result.filter (fun p => decide (th ≤ p.2))).map Prod.fst
      ∧ (ssl_search_tool th result).Sublist (result.map Prod.fst)
      ∧ (ssl_search_tool th result).length ≤ result.length
      ∧ ((∀ p ∈ result, (0 : ℚ) ≤ p.2) →
          ssl_search_tool 0 result = result.map Prod.fst) := by
  refine ⟨ssl_search_tool_eq_filter th result, ?_, ?_, ?_⟩
  · rw [ssl_search_tool_eq_filter]
    exact (List.filter_sublist _).map Prod.fst
  · calc (ssl_search_tool th result).length
        ≤ (result.map Prod.fst).length := by
          apply List.Sublist.length_le
          rw [ssl_search_tool_eq_filter]
          exact (List.filter_sublist _).map Prod.fst
      _ = result.length := List.length_map _ _
  · intro hpos
    rw [ssl_search_tool_eq_filter]
    congr 1
    apply List.filter_eq_self.mpr
    intro p hp
    simpa using hpos p hp

/-- Witness for C8: with threshold 0 a candidate scored 1/2 passes
unchanged. -/
theorem ssl_threshold_filter_witness :
    ssl_search_tool 0 [({ dtype := "rules", content := "x" }, (1 : ℚ) / 2)] =
      [{ dtype := "rules", content := "x" }] :=
  (ssl_threshold_filter 0
      [({ dtype := "rules", content := "x" }, (1 : ℚ) / 2)]).2.2.2
    (by intro p hp; rw [List.mem_singleton] at hp; subst hp; norm_num)

/-! ### The website filter value never matches ingested chunks -/

/-- C9: the ingestion pipeline tags website documents `"website_page"`
while the search facade's WEBSITE filter queries `"website_pages"`; the
strings differ, so over any index populated solely by this pipeline (every
stored type tag one of the pipeline's three), the WEBSITE filter matches no
stored chunk, and a search whose candidates are drawn from the matching
chunks returns the empty list. -/
theorem website_filter_mismatch :
    websitePageTag ≠ websiteFilterValue
      ∧ (∀ entries : List SDoc,
          (∀ e ∈ entries, e.dtype ∈ pipelineTypeTags) →
            chromaTypeFilter websiteFilterValue entries = [])
      ∧ ∀ (th : ℚ) (entries : List SDoc) (candidates : List (SDoc × ℚ)),
          (∀ e ∈ entries, e.dtype ∈ pipelineTypeTags) →
          (∀ p ∈ candidates, p.1 ∈ chromaTypeFilter websiteFilterValue entries) →
          ssl_search_tool th candidates = [] := by
  have hfilter : ∀ entries : List SDoc,
      (∀ e ∈ entries, e.dtype ∈ pipelineTypeTags) →
        chromaTypeFilter websiteFilterValue entries = [] := by
    intro entries hentries
    apply List.filter_eq_nil_iff.mpr
    intro e he
    have htag := hentries e he
    simp only [pipelineTypeTags, websitePageTag, List.mem_cons,
      List.not_mem_nil, or_false] at htag
    rcases htag with h | h | h <;> rw [h] <;> decide
  refine ⟨by decide, hfilter, ?_⟩
  intro th entries candidates hentries hcand
  cases candidates with
  | nil => rfl
  | cons p rest =>
    have := hcand p (List.mem_cons_self _ _)
    rw [hfilter entries hentries] at this
    exact absurd this (List.not_mem_nil _)

/-- Witness for C9: a concrete two-entry index holding one website chunk
and one rules chunk has no entry matching the WEBSITE filter value. -/
theorem website_filter_mismatch_witness :
    chromaTypeFilter websiteFilterValue
        [{ dtype := "website_page", content := "w" },
         { dtype := "rules", content := "r" }] = [] :=
  website_filter_mismatch.2.1
    [{ dtype := "website_page", content := "w" },
     { dtype := "rules", content := "r" }] (by decide)

/-! ### Chunk-id format and determinism -/

theorem wordLE_length (w : Nat) : (wordLE w).length = 4 := rfl

theorem md5Bytes_length (msg : List Nat) : (md5Bytes msg).length = 16 := by
  simp [md5Bytes, wordLE]

theorem byteHex_length (b : Nat) : (byteHex b).length = 2 := rfl

theorem flatten_byteHex_length (l : List Nat) :
    ((l.map byteHex).flatten).length = 2 * l.length := by
  induction l with
  | nil => rfl
  | cons b l ih =>
    simp only [List.map_cons, List.flatten_cons, List.length_append, ih,
      byteHex_length, List.length_cons]
    omega

theorem md5_hexdigest_length (s : String) : (md5_hexdigest s).length = 32 := by
  show ((md5Bytes (strBytes s)).map byteHex).flatten.length = 32
  rw [flatten_byteHex_length, md5Bytes_length]

theorem hexDigit_mem (n : Nat) : hexDigit n ∈ hexChars := by
  unfold hexDigit
  by_cases h : n < 16
  · interval_cases n <;> decide
  · rw [List.getD_eq_default]
    · decide
    · simp only [hexChars, List.length_map, List.length_range]
      omega

theorem md5_hexdigest_hex (s : String) :
    ∀ ch ∈ (md5_hexdigest s).data, ch ∈ hexChars := by
  intro ch hch
  have hch' : ch ∈ ((md5Bytes (strBytes s)).map byteHex).flatten := hch
  rcases List.mem_flatten.mp hch' with ⟨l, hl, hchl⟩
  rcases List.mem_map.mp hl with ⟨b, hb, rfl⟩
  simp only [byteHex, List.mem_cons, List.not_mem_nil, or_false] at hchl
  rcases hchl with rfl | rfl
  · exact hexDigit_mem _
  · exact hexDigit_mem _

/-- C6: the id `split_documents` assigns to a chunk whose metadata carries a
source and a type is a pure function of the triple (type, source, trimmed
page content) — identical trimmed text under the same type and source
always yields the identical id — and every id is the fixed prefix
`"doc_"` followed by the 32 lowercase hex characters of the 128-bit MD5
digest of the identity string. -/
theorem chunk_id_deterministic (ty source : String) :
    (∀ c₁ c₂ : String, strip c₁ = strip c₂ →
        assign_id ty source c₁ = assign_id ty source c₂)
      ∧ ∀ c : String, ∃ h : String,
          assign_id ty source c = "doc_" ++ h
            ∧ h.length = 32 ∧ ∀ ch ∈ h.data, ch ∈ hexChars := by
  constructor
  · intro c₁ c₂ hstrip
    unfold assign_id
    rw [hstrip]
  · intro c
    refine ⟨md5_hexdigest (hash_string ty source (strip c)), rfl,
      md5_hexdigest_length _, md5_hexdigest_hex _⟩

/-- Witness for C6 at concrete strings: text differing only in surrounding
whitespace receives the same id. -/
theorem chunk_id_deterministic_witness :
    assign_id ("rules") ("u") (" x ") = assign_id ("rules") ("u") ("x") :=
  (chunk_id_deterministic ("rules") ("u")).1 (" x ") ("x") (by decide)

/-! ### Chunk-id distinctness: the `"-"` joiner is ambiguous -/

/-- Counterexample to C7: the distinct triples `("a", "b-c", "d")` and
`("a-b", "c", "d")` produce the same pre-hash identity string `"a-b-c-d"`
and hence the same id. -/
theorem chunk_id_collision :
    hash_string ("a") ("b-c") ("d") = hash_string ("a-b") ("c") ("d")
      ∧ assign_id ("a") ("b-c") ("d") = assign_id ("a-b") ("c") ("d")
      ∧ ¬(("a" : String) = "a-b" ∧ ("b-c" : String) = "c") := by
  refine ⟨by decide, ?_, by decide⟩
  unfold assign_id
  congr 1

theorem string_data_inj {s t : String} (h : s.data = t.data) : s = t := by
  cases s
  cases t
  exact congrArg String.mk h

/-- Splitting at a separator character that occurs in neither left part is
unambiguous. -/
theorem sep_split {l₁ l₂ r₁ r₂ : List Char}
    (h₁ : '-' ∉ l₁) (h₂ : '-' ∉ l₂)
    (h : l₁ ++ '-' :: r₁ = l₂ ++ '-' :: r₂) : l₁ = l₂ ∧ r₁ = r₂ := by
  induction l₁ generalizing l₂ with
  | nil =>
    cases l₂ with
    | nil => simpa using h
    | cons c l₂ =>
      rw [List.nil_append, List.cons_append] at h
      injection h with hhead htail
      exfalso
      apply h₂
      rw [← hhead]
      exact List.mem_cons_self _ _
  | cons a l₁ ih =>
    cases l₂ with
    | nil =>
      rw [List.cons_append, List.nil_append] at h
      injection h with hhead htail
      exfalso
      apply h₁
      rw [hhead]
      exact List.mem_cons_self _ _
    | cons b l₂ =>
      rw [List.cons_append, List.cons_append] at h
      injection h with hhead htail
      subst hhead
      have h₁' : '-' ∉ l₁ := fun hm => h₁ (List.mem_cons_of_mem _ hm)
      have h₂' : '-' ∉ l₂ := fun hm => h₂ (List.mem_cons_of_mem _ hm)
      obtain ⟨he, hr⟩ := ih h₁' h₂' htail
      exact ⟨by rw [he], hr⟩

theorem dash_data : ("-" : String).data = ['-'] := rfl

/-- C7 as amended: when neither the type tag nor the source URL contains
the joiner character `'-'`, distinct (type, source, text) triples always
produce distinct pre-hash identity strings (so their ids differ whenever
the hash does not collide); without that restriction the pre-hash strings
can coincide, as `chunk_id_collision` shows. -/
theorem chunk_id_inj_sep_free (t₁ s₁ c₁ t₂ s₂ c₂ : String)
    (ht₁ : '-' ∉ t₁.data) (ht₂ : '-' ∉ t₂.data)
    (hs₁ : '-' ∉ s₁.data) (hs₂ : '-' ∉ s₂.data)
    (h : hash_string t₁ s₁ c₁ = hash_string t₂ s₂ c₂) :
    t₁ = t₂ ∧ s₁ = s₂ ∧ c₁ = c₂ := by
  have hd := congrArg String.data h
  simp only [hash_string, String.data_append, dash_data, List.append_assoc,
    List.singleton_append] at hd
  obtain ⟨ht, hrest⟩ := sep_split ht₁ ht₂ hd
  obtain ⟨hs, hc⟩ := sep_split hs₁ hs₂ hrest
  exact ⟨string_data_inj ht, string_data_inj hs, string_data_inj hc⟩

/-- Witness for the amended C7 at concrete joiner-free strings. -/
theorem chunk_id_inj_sep_free_witness :
    ("t" : String) = "t" ∧ ("s" : String) = "s" ∧ ("c" : String) = "c" :=
  chunk_id_inj_sep_free ("t") ("s") ("c") ("t") ("s") ("c")
    (by decide) (by decide) (by decide) (by decide) (by decide)

end SSLMCP
